import Mathlib

/-!
Verification of the purpledb page-buffer pool (`src/page_store.rs`,
`src/storage.rs`) against its specification.

Modelling conventions:
- Rust's `HashMap` is modelled by an association list with first-match
  lookup and in-place replacement on insert (`alGet` / `alInsert`).
- `usize` counters are modelled by `Nat`; a `-= 1` on a counter that is `0`
  is a Rust arithmetic-underflow panic (the process aborts), modelled by
  the operation returning `none`.  Increments cannot realistically
  overflow and are modelled as plain `Nat` successor.
- The raw pointers `*const Data` / `*mut Data` returned by
  `try_get_read` / `try_get_write` point at `pages[index].buf`; they are
  modelled by the slot index `meta.index` (the bytes are recovered from
  the pool state via `viewData`).
- Each fallible pool operation returns the post state together with the
  `Except` result; on failure the returned state is whatever the Rust
  code left behind (not necessarily the input state).
- The field `load_calls` is ghost instrumentation: it counts invocations
  of `storage.load_page`, which in the Rust code takes `&self` and has no
  effect on the backend state.  It lets us state "no backend load
  happened" claims.  No other definition reads it.
- The backend is instantiated with `TestStorage` from `src/storage.rs`,
  the only `Storage` implementation in the repository.
-/

namespace PurpleDB

/-- `Data = [u8; 4096]`: a page-sized byte buffer. -/
abbrev Data := List Nat

/-- `[0u8; 4096]`: a zero-filled page buffer. -/
def zeroData : Data := List.replicate 4096 0

/-- `PageId { offset: usize }` from `page_store.rs`. -/
structure PageId where
  offset : Nat
deriving DecidableEq

/-- `StorageError` from `storage.rs`. -/
inductive StorageError where
  | NotFound
  | PageAlreadyExists
deriving DecidableEq

/-- `PageError` from `page_store.rs`. -/
inductive PageError where
  | PageNotInPool
  | PageInUseForWrite
  | PageInUseForRead
  | Storage (e : StorageError)
  | PoolIsFull
deriving DecidableEq

/-- Association-list model of `HashMap`: lookup by first matching key. -/
def alGet {α β : Type} [DecidableEq α] : List (α × β) → α → Option β
  | [], _ => none
  | (k, v) :: rest, a => if a = k then some v else alGet rest a

/-- Association-list model of `HashMap` insert / in-place `get_mut`
update: replace the first entry with the given key, else append. -/
def alInsert {α β : Type} [DecidableEq α] : List (α × β) → α → β → List (α × β)
  | [], a, b => [(a, b)]
  | (k, v) :: rest, a, b =>
      if a = k then (k, b) :: rest else (k, v) :: alInsert rest a b

/-- `TestStorage { map: HashMap<PageId, Data> }` from `storage.rs`. -/
structure TestStorage where
  map : List (PageId × Data)
deriving DecidableEq

/-- `TestStorage::load_page`: look the page up and copy its bytes into the
caller's buffer; `NotFound` if absent.  The buffer is returned (fully
overwritten by `copy_from_slice`), and `&self` means the backend state
is unchanged. -/
def TestStorage.load_page (s : TestStorage) (page : PageId) :
    Except StorageError Data :=
  match alGet s.map page with
  | none => .error .NotFound
  | some d => .ok d

/-- `TestStorage::create_page`: fail with `PageAlreadyExists` if the key is
present, else register a zero-filled page. -/
def TestStorage.create_page (s : TestStorage) (page : PageId) :
    Except StorageError TestStorage :=
  if (alGet s.map page).isSome then
    .error .PageAlreadyExists
  else
    .ok { map := alInsert s.map page zeroData }

/-- `TestStorage::write_page`: insert-or-overwrite the page's bytes. -/
def TestStorage.write_page (s : TestStorage) (buf : Data) (page : PageId) :
    Except StorageError TestStorage :=
  .ok { map := alInsert s.map page buf }

/-- `const POOL_SIZE: usize = 40`. -/
def POOL_SIZE : Nat := 40

/-- `Page { buf: Data }`. -/
structure Page where
  buf : Data
deriving DecidableEq

/-- `PageMeta { index, pins, readers, writer }`. -/
structure PageMeta where
  index : Nat
  pins : Nat
  readers : Nat
  writer : Bool
deriving DecidableEq

/-- `PoolInternal<TestStorage>`: the backend, the slot arena `pages`, the
page directory `page_state`, plus the ghost `load_calls` counter (see the
file header). -/
structure PoolInternal where
  storage : TestStorage
  pages : List Page
  page_state : List (PageId × PageMeta)
  load_calls : Nat
deriving DecidableEq

/-- `PoolInternal::new`. -/
def PoolInternal.new (storage : TestStorage) : PoolInternal :=
  { storage := storage, pages := [], page_state := [], load_calls := 0 }

/-- `PoolInternal::allocate_page`: fail with `PoolIsFull` when the arena is
at capacity, else push a zero-filled slot and return a fresh `PageMeta`
pointing at it (`pins = 0`, `readers = 0`, `writer = false`). -/
def allocate_page (s : PoolInternal) :
    Except PageError (PoolInternal × PageMeta) :=
  if s.pages.length ≥ POOL_SIZE then
    .error .PoolIsFull
  else
    let index := s.pages.length
    .ok ({ s with pages := s.pages ++ [{ buf := zeroData }] },
         { index := index, pins := 0, readers := 0, writer := false })

/-- `PoolInternal::pin_page`.  If the page already has a `PageMeta`, bump
`pins`.  Otherwise allocate a slot, insert a `PageMeta` with `pins = 1`,
and load the page's bytes from the backend into the slot, wrapping any
backend error as `Storage(..)` (note the meta and slot stay behind on a
load failure). -/
def pin_page (s : PoolInternal) (page : PageId) :
    PoolInternal × Except PageError Unit :=
  match alGet s.page_state page with
  | some meta =>
      let meta' := { meta with pins := meta.pins + 1 }
      ({ s with page_state := alInsert s.page_state page meta' },
       .ok ())
  | none =>
      match allocate_page s with
      | .error e => (s, .error e)
      | .ok (s1, meta0) =>
          let meta := { meta0 with pins := meta0.pins + 1 }
          let s2 := { s1 with
            page_state := alInsert s1.page_state page meta }
          let index := meta.index
          let s3 := { s2 with load_calls := s2.load_calls + 1 }
          match s3.storage.load_page page with
          | .error e => (s3, .error (.Storage e))
          | .ok d =>
              ({ s3 with pages := s3.pages.set index { buf := d } }, .ok ())

/-- `PoolInternal::create_and_pin_page`: ask the backend to create the
page (wrapping its error), then `pin_page`. -/
def create_and_pin_page (s : PoolInternal) (page : PageId) :
    PoolInternal × Except PageError Unit :=
  match s.storage.create_page page with
  | .error e => (s, .error (.Storage e))
  | .ok st => pin_page { s with storage := st } page

/-- `PoolInternal::unpin_page`: `meta.pins -= 1` for an existing meta;
`PageNotInPool` otherwise.  `none` models the usize-underflow panic when
`pins = 0`. -/
def unpin_page (s : PoolInternal) (page : PageId) :
    Option (PoolInternal × Except PageError Unit) :=
  match alGet s.page_state page with
  | none => some (s, .error .PageNotInPool)
  | some meta =>
      if meta.pins = 0 then none
      else
        let meta' := { meta with pins := meta.pins - 1 }
        some ({ s with page_state := alInsert s.page_state page meta' },
          .ok ())

/-- `PoolInternal::try_get_read`: `PageNotInPool` if the page has no meta,
`PageInUseForWrite` if `writer` is set, else bump `readers` and return a
pointer to the slot bytes (modelled by the slot index). -/
def try_get_read (s : PoolInternal) (page : PageId) :
    PoolInternal × Except PageError Nat :=
  match alGet s.page_state page with
  | none => (s, .error .PageNotInPool)
  | some meta =>
      if meta.writer then
        (s, .error .PageInUseForWrite)
      else
        let meta' := { meta with readers := meta.readers + 1 }
        ({ s with page_state := alInsert s.page_state page meta' },
         .ok meta.index)

/-- `PoolInternal::release_read`: `meta.readers -= 1`; `none` models the
usize-underflow panic when `readers = 0`. -/
def release_read (s : PoolInternal) (page : PageId) :
    Option (PoolInternal × Except PageError Unit) :=
  match alGet s.page_state page with
  | none => some (s, .error .PageNotInPool)
  | some meta =>
      if meta.readers = 0 then none
      else
        let meta' := { meta with readers := meta.readers - 1 }
        some ({ s with page_state := alInsert s.page_state page meta' },
          .ok ())

/-- `PoolInternal::try_get_write`: `PageNotInPool` if the page has no meta,
`PageInUseForWrite` if `writer` is set, `PageInUseForRead` if
`readers > 0`, else set `writer` and return a mutable pointer to the slot
bytes (modelled by the slot index). -/
def try_get_write (s : PoolInternal) (page : PageId) :
    PoolInternal × Except PageError Nat :=
  match alGet s.page_state page with
  | none => (s, .error .PageNotInPool)
  | some meta =>
      if meta.writer then
        (s, .error .PageInUseForWrite)
      else if meta.readers > 0 then
        (s, .error .PageInUseForRead)
      else
        let meta' := { meta with writer := true }
        ({ s with page_state := alInsert s.page_state page meta' },
         .ok meta.index)

/-- `PoolInternal::release_write`: clear `writer` for an existing meta;
`PageNotInPool` otherwise. -/
def release_write (s : PoolInternal) (page : PageId) :
    PoolInternal × Except PageError Unit :=
  match alGet s.page_state page with
  | none => (s, .error .PageNotInPool)
  | some meta =>
      let meta' := { meta with writer := false }
      ({ s with page_state := alInsert s.page_state page meta' },
       .ok ())

/-- Writing bytes through a live mutable view (`MutPage`'s `DerefMut`):
the view is a pointer into `pages[index].buf`, so a write replaces that
slot's bytes in place. -/
def write_through (s : PoolInternal) (index : Nat) (d : Data) : PoolInternal :=
  { s with pages := s.pages.set index { buf := d } }

/-- Reading bytes through a live view: the bytes of `pages[index]`. -/
def viewData (s : PoolInternal) (index : Nat) : Option Data :=
  (s.pages.get? index).map Page.buf

/-- One pool operation, as invoked through the `PageStore` facade and the
guard `Drop` impls.  Steps exist only for operations that complete
(normally or with a returned error); a usize-underflow panic aborts the
process and yields no successor state. -/
inductive Step : PoolInternal → PoolInternal → Prop where
  | pin (s : PoolInternal) (page : PageId) :
      Step s (pin_page s page).1
  | create_and_pin (s : PoolInternal) (page : PageId) :
      Step s (create_and_pin_page s page).1
  | unpin (s s' : PoolInternal) (page : PageId) (r : Except PageError Unit) :
      unpin_page s page = some (s', r) → Step s s'
  | acquire_read (s : PoolInternal) (page : PageId) :
      Step s (try_get_read s page).1
  | rel_read (s s' : PoolInternal) (page : PageId) (r : Except PageError Unit) :
      release_read s page = some (s', r) → Step s s'
  | acquire_write (s : PoolInternal) (page : PageId) :
      Step s (try_get_write s page).1
  | rel_write (s : PoolInternal) (page : PageId) :
      Step s (release_write s page).1

/-- Pool states reachable from a freshly created pool (over any backend
contents) by any sequence of pool operations. -/
inductive Reachable : PoolInternal → Prop where
  | init (st : TestStorage) : Reachable (PoolInternal.new st)
  | step {s s' : PoolInternal} : Reachable s → Step s s' → Reachable s'

/-- The per-page exclusivity predicate of §3 / §8: a page whose `writer`
flag is set has no outstanding readers. -/
def ExclusiveInv (s : PoolInternal) : Prop :=
  ∀ p m, alGet s.page_state p = some m → m.writer = true → m.readers = 0

/-- A backend with no pages, as built by `TestStorage::new`. -/
def emptyStorage : TestStorage := ⟨[]⟩

/-- `PageId { offset: 0 }`. -/
def pid0 : PageId := ⟨0⟩

/-- `PageId { offset: 5 }`. -/
def pid5 : PageId := ⟨5⟩

/-- A fresh pool on an empty backend after `allocate_page(&PageId{offset:0})`
(page 0 created on the backend and pinned, as in the repository tests). -/
def exPool : PoolInternal :=
  (create_and_pin_page (PoolInternal.new emptyStorage) pid0).1

/-- `exPool` after additionally acquiring a write guard on page 0. -/
def exWriter : PoolInternal := (try_get_write exPool pid0).1

/-- `exPool` after additionally acquiring a read guard on page 0. -/
def exReader : PoolInternal := (try_get_read exPool pid0).1

/-- A pool whose arena is at capacity (40 occupied slots) with an empty
directory and an empty backend. -/
def fullPool : PoolInternal :=
  { storage := emptyStorage, pages := List.replicate POOL_SIZE { buf := zeroData },
    page_state := [], load_calls := 0 }

/-- A page buffer filled with the byte `255`. -/
def bytes255 : Data := List.replicate 4096 255

/-! ### Association-list lemmas -/

theorem alGet_alInsert_self {α β : Type} [DecidableEq α]
    {m : List (α × β)} {k : α} {v : β} :
    alGet (alInsert m k v) k = some v := by
  induction m with
  | nil => simp [alGet, alInsert]
  | cons kv rest ih =>
    obtain ⟨k', v'⟩ := kv
    by_cases h : k = k'
    · subst h; simp [alInsert, alGet]
    · simp [alInsert, alGet, h, ih]

theorem alGet_alInsert_ne {α β : Type} [DecidableEq α]
    {m : List (α × β)} {k a : α} {v : β} (h : a ≠ k) :
    alGet (alInsert m k v) a = alGet m a := by
  induction m with
  | nil => simp [alGet, alInsert, h]
  | cons kv rest ih =>
    obtain ⟨k', v'⟩ := kv
    by_cases hk : k = k'
    · subst hk; simp [alInsert, alGet, h]
    · simp [alInsert, alGet, hk, ih]

theorem alInsert_alInsert {α β : Type} [DecidableEq α]
    {m : List (α × β)} {k : α} {v w : β} :
    alInsert (alInsert m k v) k w = alInsert m k w := by
  induction m with
  | nil => simp [alInsert]
  | cons kv rest ih =>
    obtain ⟨k', v'⟩ := kv
    by_cases h : k = k' <;> simp [alInsert, h, ih]

theorem get?_set_self (l : List Page) (i : Nat) (a : Page)
    (h : i < l.length) : (l.set i a)[i]? = some a := by
  induction l generalizing i with
  | nil => simp at h
  | cons x xs ih =>
    cases i with
    | zero => simp
    | succ n => simpa using ih n (by simpa using h)

theorem get?_append_length (l : List Page) (a : Page) :
    (l ++ [a])[l.length]? = some a := by
  induction l with
  | nil => rfl
  | cons x xs ih => simp [ih]

theorem set_append_length (l : List Page) (a b : Page) :
    (l ++ [a]).set l.length b = l ++ [b] := by
  induction l with
  | nil => rfl
  | cons x xs ih => simp [ih]

/-! ### Pointwise characterizations of the pool operations -/

theorem try_get_write_ok {s : PoolInternal} {page : PageId} {meta : PageMeta}
    (hm : alGet s.page_state page = some meta) (hw : meta.writer = false)
    (hr : meta.readers = 0) :
    try_get_write s page =
      ({ s with page_state := alInsert s.page_state page { meta with writer := true } },
       .ok meta.index) := by
  simp [try_get_write, hm, hw, hr]

theorem try_get_read_ok {s : PoolInternal} {page : PageId} {meta : PageMeta}
    (hm : alGet s.page_state page = some meta) (hw : meta.writer = false) :
    try_get_read s page =
      ({ s with page_state := alInsert s.page_state page { meta with readers := meta.readers + 1 } },
       .ok meta.index) := by
  simp [try_get_read, hm, hw]

theorem release_write_some {s : PoolInternal} {page : PageId} {meta : PageMeta}
    (hm : alGet s.page_state page = some meta) :
    release_write s page =
      ({ s with page_state := alInsert s.page_state page { meta with writer := false } },
       .ok ()) := by
  simp [release_write, hm]

theorem release_read_some {s : PoolInternal} {page : PageId} {meta : PageMeta}
    (hm : alGet s.page_state page = some meta) (hr : meta.readers ≠ 0) :
    release_read s page =
      some ({ s with page_state := alInsert s.page_state page { meta with readers := meta.readers - 1 } },
        .ok ()) := by
  simp [release_read, hm, hr]

theorem unpin_some {s : PoolInternal} {page : PageId} {meta : PageMeta}
    (hm : alGet s.page_state page = some meta) (hp : meta.pins ≠ 0) :
    unpin_page s page =
      some ({ s with page_state := alInsert s.page_state page { meta with pins := meta.pins - 1 } },
        .ok ()) := by
  simp [unpin_page, hm, hp]

theorem pin_resident {s : PoolInternal} {page : PageId} {meta : PageMeta}
    (hm : alGet s.page_state page = some meta) :
    pin_page s page =
      ({ s with page_state := alInsert s.page_state page { meta with pins := meta.pins + 1 } },
       .ok ()) := by
  simp [pin_page, hm]

theorem pin_fresh_ok {s : PoolInternal} {page : PageId} {d : Data}
    (hnone : alGet s.page_state page = none)
    (hcap : ¬ s.pages.length ≥ POOL_SIZE)
    (hload : TestStorage.load_page s.storage page = .ok d) :
    pin_page s page =
      ({ storage := s.storage, pages := s.pages ++ [{ buf := d }],
         page_state := alInsert s.page_state page
           { index := s.pages.length, pins := 1, readers := 0, writer := false },
         load_calls := s.load_calls + 1 }, .ok ()) := by
  simp [pin_page, hnone, allocate_page, hcap, hload, set_append_length]

theorem pin_fresh_err {s : PoolInternal} {page : PageId} {e : StorageError}
    (hnone : alGet s.page_state page = none)
    (hcap : ¬ s.pages.length ≥ POOL_SIZE)
    (hload : TestStorage.load_page s.storage page = .error e) :
    pin_page s page =
      ({ storage := s.storage, pages := s.pages ++ [{ buf := zeroData }],
         page_state := alInsert s.page_state page
           { index := s.pages.length, pins := 1, readers := 0, writer := false },
         load_calls := s.load_calls + 1 }, .error (.Storage e)) := by
  simp [pin_page, hnone, allocate_page, hcap, hload]

theorem pin_full {s : PoolInternal} {page : PageId}
    (hnone : alGet s.page_state page = none)
    (hcap : s.pages.length ≥ POOL_SIZE) :
    pin_page s page = (s, .error .PoolIsFull) := by
  simp [pin_page, hnone, allocate_page, hcap]

theorem pin_page_storage (s : PoolInternal) (page : PageId) :
    (pin_page s page).1.storage = s.storage := by
  rcases hq : alGet s.page_state page with _ | meta
  · by_cases hcap : s.pages.length ≥ POOL_SIZE
    · simp [pin_full hq hcap]
    · rcases hload : TestStorage.load_page s.storage page with e | d
      · simp [pin_fresh_err hq hcap hload]
      · simp [pin_fresh_ok hq hcap hload]
  · simp [pin_resident hq]

/-! ### Preservation of the exclusivity predicate -/

theorem exclusiveInv_alInsert {s : PoolInternal} {page : PageId}
    {meta' : PageMeta} (h : ExclusiveInv s)
    (hnew : meta'.writer = true → meta'.readers = 0) :
    ExclusiveInv { s with page_state := alInsert s.page_state page meta' } := by
  intro p m hpm hw
  by_cases hp : p = page
  · subst hp
    rw [alGet_alInsert_self] at hpm
    cases hpm
    exact hnew hw
  · rw [alGet_alInsert_ne hp] at hpm
    exact h p m hpm hw

theorem exclusiveInv_pin (s : PoolInternal) (page : PageId)
    (h : ExclusiveInv s) : ExclusiveInv (pin_page s page).1 := by
  rcases hq : alGet s.page_state page with _ | meta
  · by_cases hfull : s.pages.length ≥ POOL_SIZE
    · simp only [pin_page, hq, allocate_page, if_pos hfull]
      exact h
    · simp only [pin_page, hq, allocate_page, if_neg hfull]
      rcases hload : TestStorage.load_page s.storage page with e | d <;>
        simp only [hload] <;>
        exact exclusiveInv_alInsert h (fun hw => by simp at hw)
  · simp only [pin_page, hq]
    exact exclusiveInv_alInsert h (fun hw => h page meta hq hw)

theorem exclusiveInv_create_and_pin (s : PoolInternal) (page : PageId)
    (h : ExclusiveInv s) : ExclusiveInv (create_and_pin_page s page).1 := by
  rcases hc : TestStorage.create_page s.storage page with e | st
  · simp only [create_and_pin_page, hc]
    exact h
  · simp only [create_and_pin_page, hc]
    exact exclusiveInv_pin { s with storage := st } page h

theorem exclusiveInv_unpin {s s' : PoolInternal} {page : PageId}
    {r : Except PageError Unit} (hu : unpin_page s page = some (s', r))
    (h : ExclusiveInv s) : ExclusiveInv s' := by
  rcases hq : alGet s.page_state page with _ | meta
  · simp only [unpin_page, hq, Option.some.injEq, Prod.mk.injEq] at hu
    rw [← hu.1]
    exact h
  · simp only [unpin_page, hq] at hu
    by_cases hz : meta.pins = 0
    · simp [hz] at hu
    · simp only [if_neg hz, Option.some.injEq, Prod.mk.injEq] at hu
      rw [← hu.1]
      exact exclusiveInv_alInsert h (fun hw => h page meta hq hw)

theorem exclusiveInv_try_get_read (s : PoolInternal) (page : PageId)
    (h : ExclusiveInv s) : ExclusiveInv (try_get_read s page).1 := by
  rcases hq : alGet s.page_state page with _ | meta
  · simp only [try_get_read, hq]
    exact h
  · by_cases hw : meta.writer
    · simp only [try_get_read, hq, if_pos hw]
      exact h
    · simp only [try_get_read, hq, if_neg hw]
      exact exclusiveInv_alInsert h (fun hw' => by simp_all)

theorem exclusiveInv_release_read {s s' : PoolInternal} {page : PageId}
    {r : Except PageError Unit} (hu : release_read s page = some (s', r))
    (h : ExclusiveInv s) : ExclusiveInv s' := by
  rcases hq : alGet s.page_state page with _ | meta
  · simp only [release_read, hq, Option.some.injEq, Prod.mk.injEq] at hu
    rw [← hu.1]
    exact h
  · simp only [release_read, hq] at hu
    by_cases hz : meta.readers = 0
    · simp [hz] at hu
    · simp only [if_neg hz, Option.some.injEq, Prod.mk.injEq] at hu
      rw [← hu.1]
      refine exclusiveInv_alInsert h (fun hw => ?_)
      simp only at hw
      exact absurd (h page meta hq hw) hz

theorem exclusiveInv_try_get_write (s : PoolInternal) (page : PageId)
    (h : ExclusiveInv s) : ExclusiveInv (try_get_write s page).1 := by
  rcases hq : alGet s.page_state page with _ | meta
  · simp only [try_get_write, hq]
    exact h
  · by_cases hw : meta.writer
    · simp only [try_get_write, hq, if_pos hw]
      exact h
    · by_cases hr : meta.readers > 0
      · simp only [try_get_write, hq, if_neg hw, if_pos hr]
        exact h
      · simp only [try_get_write, hq, if_neg hw, if_neg hr]
        exact exclusiveInv_alInsert h (fun _ => by show meta.readers = 0; omega)

theorem exclusiveInv_release_write (s : PoolInternal) (page : PageId)
    (h : ExclusiveInv s) : ExclusiveInv (release_write s page).1 := by
  rcases hq : alGet s.page_state page with _ | meta
  · simp only [release_write, hq]
    exact h
  · simp only [release_write, hq]
    exact exclusiveInv_alInsert h (fun hw => by simp at hw)

theorem exclusiveInv_step {s s' : PoolInternal} (hs : Step s s')
    (h : ExclusiveInv s) : ExclusiveInv s' := by
  cases hs with
  | pin page => exact exclusiveInv_pin _ page h
  | create_and_pin page => exact exclusiveInv_create_and_pin _ page h
  | unpin s' page r hu => exact exclusiveInv_unpin hu h
  | acquire_read page => exact exclusiveInv_try_get_read _ page h
  | rel_read s' page r hu => exact exclusiveInv_release_read hu h
  | acquire_write page => exact exclusiveInv_try_get_write _ page h
  | rel_write page => exact exclusiveInv_release_write _ page h

theorem exclusiveInv_reachable {s : PoolInternal} (h : Reachable s) :
    ExclusiveInv s := by
  induction h with
  | init st => intro p m hpm hw; simp [PoolInternal.new, alGet] at hpm
  | step _ hs ih => exact exclusiveInv_step hs ih

/-! ### Arena size bound -/

theorem pagesBound_pin (s : PoolInternal) (page : PageId)
    (h : s.pages.length ≤ POOL_SIZE) :
    (pin_page s page).1.pages.length ≤ POOL_SIZE := by
  rcases hq : alGet s.page_state page with _ | meta
  · by_cases hcap : s.pages.length ≥ POOL_SIZE
    · simp only [pin_full hq hcap]
      exact h
    · rcases hload : TestStorage.load_page s.storage page with e | d
      · simp only [pin_fresh_err hq hcap hload]
        simp only [List.length_append, List.length_singleton]
        omega
      · simp only [pin_fresh_ok hq hcap hload]
        simp only [List.length_append, List.length_singleton]
        omega
  · simp only [pin_resident hq]
    exact h

theorem pagesBound_step {s s' : PoolInternal} (hs : Step s s')
    (h : s.pages.length ≤ POOL_SIZE) : s'.pages.length ≤ POOL_SIZE := by
  cases hs with
  | pin page => exact pagesBound_pin s page h
  | create_and_pin page =>
    rcases hc : TestStorage.create_page s.storage page with e | st
    · simp only [create_and_pin_page, hc]
      exact h
    · simp only [create_and_pin_page, hc]
      exact pagesBound_pin { s with storage := st } page h
  | unpin s' page r hu =>
    rcases hq : alGet s.page_state page with _ | meta
    · simp only [unpin_page, hq, Option.some.injEq, Prod.mk.injEq] at hu
      rw [← hu.1]
      exact h
    · simp only [unpin_page, hq] at hu
      by_cases hz : meta.pins = 0
      · simp [hz] at hu
      · simp only [if_neg hz, Option.some.injEq, Prod.mk.injEq] at hu
        rw [← hu.1]
        exact h
  | acquire_read page =>
    rcases hq : alGet s.page_state page with _ | meta
    · simpa only [try_get_read, hq] using h
    · by_cases hw : meta.writer
      · simpa only [try_get_read, hq, if_pos hw] using h
      · simpa only [try_get_read, hq, if_neg hw] using h
  | rel_read s' page r hu =>
    rcases hq : alGet s.page_state page with _ | meta
    · simp only [release_read, hq, Option.some.injEq, Prod.mk.injEq] at hu
      rw [← hu.1]
      exact h
    · simp only [release_read, hq] at hu
      by_cases hz : meta.readers = 0
      · simp [hz] at hu
      · simp only [if_neg hz, Option.some.injEq, Prod.mk.injEq] at hu
        rw [← hu.1]
        exact h
  | acquire_write page =>
    rcases hq : alGet s.page_state page with _ | meta
    · simpa only [try_get_write, hq] using h
    · by_cases hw : meta.writer
      · simpa only [try_get_write, hq, if_pos hw] using h
      · by_cases hr : meta.readers > 0
        · simpa only [try_get_write, hq, if_neg hw, if_pos hr] using h
        · simpa only [try_get_write, hq, if_neg hw, if_neg hr] using h
  | rel_write page =>
    rcases hq : alGet s.page_state page with _ | meta
    · simpa only [release_write, hq] using h
    · simpa only [release_write, hq] using h

theorem pages_length_le {s : PoolInternal} (h : Reachable s) :
    s.pages.length ≤ POOL_SIZE := by
  induction h with
  | init st => simp [PoolInternal.new, POOL_SIZE]
  | step _ hs ih => exact pagesBound_step hs ih

/-! ### The claims -/

/-- C1.  Exclusivity invariant: in every pool state reachable by any
sequence of pin/unpin/acquire-read/release-read/acquire-write/release-write
operations, every `PageId` in the directory has `writer = false` or
`readers = 0`; a state with `writer = true` and `readers > 0` is never
reached. -/
theorem claim1_exclusivity_invariant (s : PoolInternal) (h : Reachable s)
    (p : PageId) (m : PageMeta) (hm : alGet s.page_state p = some m) :
    m.writer = false ∨ m.readers = 0 := by
  by_cases hw : m.writer
  · exact Or.inr (exclusiveInv_reachable h p m hm hw)
  · exact Or.inl (by simpa using hw)

/-- Witness for C1: the pool reached by `allocate_page(0)` followed by a
successful write-guard acquisition has page 0 with an active writer and
zero readers. -/
theorem claim1_witness :
    Reachable exWriter ∧
    alGet exWriter.page_state pid0 =
      some { index := 0, pins := 1, readers := 0, writer := true } ∧
    (({ index := 0, pins := 1, readers := 0, writer := true } : PageMeta).writer = false ∨
      ({ index := 0, pins := 1, readers := 0, writer := true } : PageMeta).readers = 0) := by
  have hr : Reachable exWriter :=
    Reachable.step
      (Reachable.step (Reachable.init emptyStorage)
        (Step.create_and_pin (PoolInternal.new emptyStorage) pid0))
      (Step.acquire_write exPool pid0)
  exact ⟨hr, rfl, claim1_exclusivity_invariant exWriter hr pid0 _ rfl⟩

/-- C2.  `acquire_write` (`try_get_write`): `PageNotInPool` when the page
has no meta, else `PageInUseForWrite` when `writer` is set, else
`PageInUseForRead` when `readers > 0`, else success: `writer` is set to
`true`, a mutable view of the page's slot (its index, pointing at the
slot bytes) is returned, and nothing else changes; each failure leaves the
state unchanged. -/
theorem claim2_acquire_write (s : PoolInternal) (page : PageId) :
    match alGet s.page_state page with
    | none => try_get_write s page = (s, .error .PageNotInPool)
    | some meta =>
        if meta.writer then
          try_get_write s page = (s, .error .PageInUseForWrite)
        else if meta.readers > 0 then
          try_get_write s page = (s, .error .PageInUseForRead)
        else
          try_get_write s page =
            ({ s with page_state := alInsert s.page_state page { meta with writer := true } },
             .ok meta.index) := by
  rcases hq : alGet s.page_state page with _ | meta
  · simp [try_get_write, hq]
  · by_cases hw : meta.writer
    · simp [try_get_write, hq, hw]
    · by_cases hr : meta.readers > 0
      · simp [try_get_write, hq, hw, hr]
      · simp [try_get_write, hq, hw, hr]

/-- C3.  `acquire_read` (`try_get_read`): `PageNotInPool` when the page
has no meta and `PageInUseForWrite` when `writer` is set (both leaving the
state unchanged); otherwise it succeeds — regardless of how many readers
are already outstanding, so a second concurrent read succeeds —
incrementing `readers` by exactly one and returning a read-only view of
the page's slot (its index, pointing at the slot bytes). -/
theorem claim3_acquire_read (s : PoolInternal) (page : PageId) :
    match alGet s.page_state page with
    | none => try_get_read s page = (s, .error .PageNotInPool)
    | some meta =>
        if meta.writer then
          try_get_read s page = (s, .error .PageInUseForWrite)
        else
          try_get_read s page =
            ({ s with page_state := alInsert s.page_state page { meta with readers := meta.readers + 1 } },
             .ok meta.index) := by
  rcases hq : alGet s.page_state page with _ | meta
  · simp [try_get_read, hq]
  · by_cases hw : meta.writer
    · simp [try_get_read, hq, hw]
    · simp [try_get_read, hq, hw]

/-- C4.  Round trip: for a resident page whose guards are free, acquiring
a write view, writing `d` through it, releasing the write, and acquiring a
read view yields exactly `d` with no backend load (`load_calls`
unchanged); and the same still holds after unpinning and re-pinning the
page on the same pool, since pinning a resident page does not call the
backend. -/
theorem claim4_round_trip (s : PoolInternal) (page : PageId) (meta : PageMeta)
    (d : Data) (hm : alGet s.page_state page = some meta)
    (hw : meta.writer = false) (hr : meta.readers = 0)
    (hpins : 1 ≤ meta.pins) (hidx : meta.index < s.pages.length) :
    ∃ sW sR sRR sU sP sPR : PoolInternal,
      try_get_write s page = (sW, .ok meta.index) ∧
      release_write (write_through sW meta.index d) page = (sR, .ok ()) ∧
      try_get_read sR page = (sRR, .ok meta.index) ∧
      viewData sRR meta.index = some d ∧
      sRR.load_calls = s.load_calls ∧
      unpin_page sR page = some (sU, .ok ()) ∧
      pin_page sU page = (sP, .ok ()) ∧
      try_get_read sP page = (sPR, .ok meta.index) ∧
      viewData sPR meta.index = some d ∧
      sP.load_calls = s.load_calls := by
  have hpz : meta.pins ≠ 0 := by omega
  have e1 : try_get_write s page =
      ({ s with page_state := alInsert s.page_state page { meta with writer := true } }, .ok meta.index) :=
    try_get_write_ok hm hw hr
  have e2 : release_write (write_through { s with page_state := alInsert s.page_state page { meta with writer := true } } meta.index d) page =
      ({ s with pages := s.pages.set meta.index { buf := d }, page_state := alInsert s.page_state page { meta with writer := false } }, .ok ()) := by
    simp [release_write, write_through, alGet_alInsert_self, alInsert_alInsert]
  have e3 : try_get_read { s with pages := s.pages.set meta.index { buf := d }, page_state := alInsert s.page_state page { meta with writer := false } } page =
      ({ s with pages := s.pages.set meta.index { buf := d }, page_state := alInsert s.page_state page { meta with readers := meta.readers + 1, writer := false } }, .ok meta.index) := by
    simp [try_get_read, alGet_alInsert_self, alInsert_alInsert]
  have e4 : viewData { s with pages := s.pages.set meta.index { buf := d }, page_state := alInsert s.page_state page { meta with readers := meta.readers + 1, writer := false } } meta.index = some d := by
    simp [viewData, get?_set_self s.pages meta.index { buf := d } hidx]
  have e5 : unpin_page { s with pages := s.pages.set meta.index { buf := d }, page_state := alInsert s.page_state page { meta with writer := false } } page =
      some ({ s with pages := s.pages.set meta.index { buf := d }, page_state := alInsert s.page_state page { meta with pins := meta.pins - 1, writer := false } }, .ok ()) := by
    simp [unpin_page, alGet_alInsert_self, alInsert_alInsert, hpz]
  have e6 : pin_page { s with pages := s.pages.set meta.index { buf := d }, page_state := alInsert s.page_state page { meta with pins := meta.pins - 1, writer := false } } page =
      ({ s with pages := s.pages.set meta.index { buf := d }, page_state := alInsert s.page_state page { meta with pins := meta.pins - 1 + 1, writer := false } }, .ok ()) := by
    simp [pin_page, alGet_alInsert_self, alInsert_alInsert]
  have e7 : try_get_read { s with pages := s.pages.set meta.index { buf := d }, page_state := alInsert s.page_state page { meta with pins := meta.pins - 1 + 1, writer := false } } page =
      ({ s with pages := s.pages.set meta.index { buf := d }, page_state := alInsert s.page_state page { meta with pins := meta.pins - 1 + 1, readers := meta.readers + 1, writer := false } }, .ok meta.index) := by
    simp [try_get_read, alGet_alInsert_self, alInsert_alInsert]
  have e8 : viewData { s with pages := s.pages.set meta.index { buf := d }, page_state := alInsert s.page_state page { meta with pins := meta.pins - 1 + 1, readers := meta.readers + 1, writer := false } } meta.index = some d := by
    simp [viewData, get?_set_self s.pages meta.index { buf := d } hidx]
  exact ⟨_, _, _, _, _, _, e1, e2, e3, e4, rfl, e5, e6, e7, e8, rfl⟩

/-- Witness for C4 at the concrete pool `exPool` (page 0 resident, no
guards), writing a buffer of 255 bytes. -/
theorem claim4_witness :
    alGet exPool.page_state pid0 =
      some { index := 0, pins := 1, readers := 0, writer := false } ∧
    (∃ sW sR sRR sU sP sPR : PoolInternal,
      try_get_write exPool pid0 = (sW, .ok 0) ∧
      release_write (write_through sW 0 bytes255) pid0 = (sR, .ok ()) ∧
      try_get_read sR pid0 = (sRR, .ok 0) ∧
      viewData sRR 0 = some bytes255 ∧
      sRR.load_calls = exPool.load_calls ∧
      unpin_page sR pid0 = some (sU, .ok ()) ∧
      pin_page sU pid0 = (sP, .ok ()) ∧
      try_get_read sP pid0 = (sPR, .ok 0) ∧
      viewData sPR 0 = some bytes255 ∧
      sP.load_calls = exPool.load_calls) :=
  ⟨rfl, claim4_round_trip exPool pid0 ⟨0, 1, 0, false⟩ bytes255 rfl rfl rfl
    (by decide) (by decide)⟩

/-- C5.  Capacity bound: a reachable pool has at most 40 occupied slots;
for a `PageId` with no meta, `pin_page` fails with `PoolIsFull` exactly
when 40 slots are occupied; and pinning an already-resident `PageId`
never consumes a slot (the arena is unchanged, for any number of repeat
pins). -/
theorem claim5_capacity (s : PoolInternal) (page : PageId) (h : Reachable s) :
    s.pages.length ≤ POOL_SIZE ∧
    (alGet s.page_state page = none →
      ((pin_page s page).2 = .error .PoolIsFull ↔ s.pages.length = POOL_SIZE)) ∧
    (∀ meta, alGet s.page_state page = some meta →
      (pin_page s page).1.pages = s.pages) := by
  refine ⟨pages_length_le h, fun hnone => ?_, fun meta hm => ?_⟩
  · by_cases hcap : s.pages.length ≥ POOL_SIZE
    · constructor
      · intro _
        have := pages_length_le h
        omega
      · intro _
        simp [pin_full hnone hcap]
    · constructor
      · intro hres
        rcases hload : TestStorage.load_page s.storage page with e | dd
        · rw [pin_fresh_err hnone hcap hload] at hres
          simp at hres
        · rw [pin_fresh_ok hnone hcap hload] at hres
          simp at hres
      · intro hlen
        exact absurd hlen (by omega)
  · simp [pin_resident hm]

/-- Witness for C5 at the reachable pool `exPool` with its resident
page 0. -/
theorem claim5_witness :
    Reachable exPool ∧ exPool.pages.length ≤ POOL_SIZE ∧
    alGet exPool.page_state pid0 =
      some { index := 0, pins := 1, readers := 0, writer := false } ∧
    (pin_page exPool pid0).1.pages = exPool.pages := by
  have hr : Reachable exPool :=
    Reachable.step (Reachable.init emptyStorage)
      (Step.create_and_pin (PoolInternal.new emptyStorage) pid0)
  have h := claim5_capacity exPool pid0 hr
  exact ⟨hr, h.1, rfl, h.2.2 _ rfl⟩

/-- C6 as stated is false: it asserts that for *every* pool state, `pin`
on a `PageId` without a `PageMeta` "allocates a new slot, creates a
PageMeta for id with pin_count = 1, and loads the page's bytes",
returning only backend errors wrapped as `Storage(..)`.  At a full arena
(`fullPool`) and a fresh id, `pin_page` instead fails with `PoolIsFull`,
leaves the state completely unchanged, and creates no `PageMeta`. -/
theorem claim6_counterexample :
    alGet fullPool.page_state pid0 = none ∧
    pin_page fullPool pid0 = (fullPool, .error .PoolIsFull) ∧
    alGet (pin_page fullPool pid0).1.page_state pid0 = none ∧
    (pin_page fullPool pid0).1.pages.length = fullPool.pages.length ∧
    (∀ e : StorageError, (pin_page fullPool pid0).2 ≠ .error (.Storage e)) := by
  refine ⟨rfl, rfl, rfl, rfl, fun e => ?_⟩
  rw [show (pin_page fullPool pid0).2 = Except.error PageError.PoolIsFull from rfl]
  cases e <;> simp

/-- C6 amended: `pin_page` for a resident `PageId` bumps `pins` by one
with no other state change and no backend call; for a fresh `PageId` it
fails with `PoolIsFull` (state unchanged) *when the arena is at
capacity*, and otherwise allocates a new slot, creates a `PageMeta` with
`pins = 1`, and loads the page's bytes from the backend into the slot,
wrapping any backend error as `Storage(..)`. -/
theorem claim6_pin_behavior (s : PoolInternal) (page : PageId) :
    match alGet s.page_state page with
    | some meta =>
        pin_page s page =
          ({ s with page_state := alInsert s.page_state page { meta with pins := meta.pins + 1 } }, .ok ())
    | none =>
        if s.pages.length ≥ POOL_SIZE then
          pin_page s page = (s, .error .PoolIsFull)
        else
          match TestStorage.load_page s.storage page with
          | .ok d =>
              pin_page s page =
                ({ storage := s.storage, pages := s.pages ++ [{ buf := d }], page_state := alInsert s.page_state page { index := s.pages.length, pins := 1, readers := 0, writer := false }, load_calls := s.load_calls + 1 }, .ok ())
          | .error e =>
              pin_page s page =
                ({ storage := s.storage, pages := s.pages ++ [{ buf := zeroData }], page_state := alInsert s.page_state page { index := s.pages.length, pins := 1, readers := 0, writer := false }, load_calls := s.load_calls + 1 }, .error (.Storage e)) := by
  rcases hq : alGet s.page_state page with _ | meta
  · by_cases hcap : s.pages.length ≥ POOL_SIZE
    · simp [hcap, pin_full hq hcap]
    · rcases hload : TestStorage.load_page s.storage page with e | dd
      · simp [hcap, hload, pin_fresh_err hq hcap hload]
      · simp [hcap, hload, pin_fresh_ok hq hcap hload]
  · simp [pin_resident hq]

/-- Helper for C7/C10: `create_and_pin_page` fails with the wrapped
`PageAlreadyExists`, changing nothing, whenever the backend already has
the page. -/
theorem create_and_pin_exists {s : PoolInternal} {page : PageId}
    (h : (alGet s.storage.map page).isSome) :
    create_and_pin_page s page = (s, .error (.Storage .PageAlreadyExists)) := by
  simp [create_and_pin_page, TestStorage.create_page, h]

/-- C7.  `create_and_pin_page` asks the backend to create the page first:
if the id already exists on the backend it fails with
`Storage(PageAlreadyExists)` and changes nothing (directory, arena and
backend untouched); consequently a second `create_and_pin_page` with the
same id fails with that wrapped error. -/
theorem claim7_create_and_pin (s : PoolInternal) (page : PageId) :
    ((alGet s.storage.map page).isSome →
      create_and_pin_page s page = (s, .error (.Storage .PageAlreadyExists))) ∧
    (∀ s1, create_and_pin_page s page = (s1, .ok ()) →
      create_and_pin_page s1 page = (s1, .error (.Storage .PageAlreadyExists))) := by
  refine ⟨create_and_pin_exists, fun s1 h1 => ?_⟩
  apply create_and_pin_exists
  rcases hc : TestStorage.create_page s.storage page with e | st
  · simp [create_and_pin_page, hc] at h1
  · simp only [create_and_pin_page, hc] at h1
    have hst : s1.storage = st := by
      have hp := pin_page_storage { s with storage := st } page
      rw [h1] at hp
      exact hp
    simp only [TestStorage.create_page] at hc
    by_cases hex : (alGet s.storage.map page).isSome
    · simp [hex] at hc
    · simp only [if_neg hex, Except.ok.injEq] at hc
      rw [hst, ← hc]
      simp [alGet_alInsert_self]

/-- Witness for C7: allocating page 0 twice on a fresh pool; the second
call fails with the wrapped `PageAlreadyExists`. -/
theorem claim7_witness :
    (alGet exPool.storage.map pid0).isSome = true ∧
    create_and_pin_page (PoolInternal.new emptyStorage) pid0 = (exPool, .ok ()) ∧
    create_and_pin_page exPool pid0 = (exPool, .error (.Storage .PageAlreadyExists)) := by
  refine ⟨rfl, rfl, ?_⟩
  exact (claim7_create_and_pin (PoolInternal.new emptyStorage) pid0).2 exPool rfl

/-- C8.  For a `PageId` with a `PageMeta`: `release_read` decrements
`readers` by exactly one (given `readers ≥ 1`), `release_write` clears
`writer`, and `unpin_page` decrements `pins` by exactly one (given
`pins ≥ 1`), each changing nothing else; for a `PageId` with no
`PageMeta` all three fail with `PageNotInPool` leaving the state
unchanged. -/
theorem claim8_release_ops (s : PoolInternal) (page : PageId) :
    (∀ meta, alGet s.page_state page = some meta →
      (1 ≤ meta.readers →
        release_read s page =
          some ({ s with page_state := alInsert s.page_state page { meta with readers := meta.readers - 1 } }, .ok ())) ∧
      release_write s page =
        ({ s with page_state := alInsert s.page_state page { meta with writer := false } }, .ok ()) ∧
      (1 ≤ meta.pins →
        unpin_page s page =
          some ({ s with page_state := alInsert s.page_state page { meta with pins := meta.pins - 1 } }, .ok ()))) ∧
    (alGet s.page_state page = none →
      release_read s page = some (s, .error .PageNotInPool) ∧
      release_write s page = (s, .error .PageNotInPool) ∧
      unpin_page s page = some (s, .error .PageNotInPool)) := by
  constructor
  · intro meta hm
    refine ⟨fun hr => ?_, release_write_some hm, fun hp => ?_⟩
    · exact release_read_some hm (by omega)
    · exact unpin_some hm (by omega)
  · intro hnone
    exact ⟨by simp [release_read, hnone], by simp [release_write, hnone],
      by simp [unpin_page, hnone]⟩

/-- Witness for C8 at `exReader` (page 0 resident with one read guard,
`pins = 1`, `readers = 1`). -/
theorem claim8_witness :
    alGet exReader.page_state pid0 =
      some { index := 0, pins := 1, readers := 1, writer := false } ∧
    release_read exReader pid0 =
      some ({ exReader with page_state := alInsert exReader.page_state pid0 { index := 0, pins := 1, readers := 0, writer := false } }, .ok ()) ∧
    release_write exReader pid0 =
      ({ exReader with page_state := alInsert exReader.page_state pid0 { index := 0, pins := 1, readers := 1, writer := false } }, .ok ()) ∧
    unpin_page exReader pid0 =
      some ({ exReader with page_state := alInsert exReader.page_state pid0 { index := 0, pins := 0, readers := 1, writer := false } }, .ok ()) := by
  have h := (claim8_release_ops exReader pid0).1
    { index := 0, pins := 1, readers := 1, writer := false } rfl
  exact ⟨rfl, h.1 (by decide), h.2.1, h.2.2 (by decide)⟩

/-- C9.  `pin_page` failure is not atomic: for a fresh `PageId`, a
non-full arena, and a backend that does not have the page
(`load_page` fails with `NotFound`), `pin_page` returns
`Storage(NotFound)` but a slot has been consumed and a `PageMeta` with
`pins = 1` remains; a second `pin_page` then succeeds without calling
the backend (`load_calls` does not grow), and the slot left behind is
zero-initialized. -/
theorem claim9_pin_not_atomic (s : PoolInternal) (page : PageId)
    (hnone : alGet s.page_state page = none)
    (hcap : s.pages.length < POOL_SIZE)
    (hmiss : alGet s.storage.map page = none) :
    pin_page s page =
      ({ storage := s.storage, pages := s.pages ++ [{ buf := zeroData }], page_state := alInsert s.page_state page { index := s.pages.length, pins := 1, readers := 0, writer := false }, load_calls := s.load_calls + 1 },
       .error (.Storage .NotFound)) ∧
    pin_page (pin_page s page).1 page =
      ({ storage := s.storage, pages := s.pages ++ [{ buf := zeroData }], page_state := alInsert s.page_state page { index := s.pages.length, pins := 2, readers := 0, writer := false }, load_calls := s.load_calls + 1 },
       .ok ()) ∧
    viewData (pin_page s page).1 s.pages.length = some zeroData := by
  have hload : TestStorage.load_page s.storage page = .error .NotFound := by
    simp [TestStorage.load_page, hmiss]
  have hcap' : ¬ s.pages.length ≥ POOL_SIZE := by omega
  have e1 := pin_fresh_err hnone hcap' hload
  have e2 : pin_page { storage := s.storage, pages := s.pages ++ [{ buf := zeroData }], page_state := alInsert s.page_state page { index := s.pages.length, pins := 1, readers := 0, writer := false }, load_calls := s.load_calls + 1 } page =
      ({ storage := s.storage, pages := s.pages ++ [{ buf := zeroData }], page_state := alInsert s.page_state page { index := s.pages.length, pins := 2, readers := 0, writer := false }, load_calls := s.load_calls + 1 },
       .ok ()) := by
    simp [pin_page, alGet_alInsert_self, alInsert_alInsert]
  refine ⟨e1, ?_, ?_⟩
  · simp only [e1]
    exact e2
  · simp only [e1, viewData]
    simp [get?_append_length]

/-- Witness for C9: pinning page 5 on a fresh pool over an empty
backend. -/
theorem claim9_witness :
    alGet (PoolInternal.new emptyStorage).page_state pid5 = none ∧
    (PoolInternal.new emptyStorage).pages.length < POOL_SIZE ∧
    alGet (PoolInternal.new emptyStorage).storage.map pid5 = none ∧
    (pin_page (PoolInternal.new emptyStorage) pid5).2 = .error (.Storage .NotFound) ∧
    alGet (pin_page (PoolInternal.new emptyStorage) pid5).1.page_state pid5 =
      some { index := 0, pins := 1, readers := 0, writer := false } ∧
    (pin_page (pin_page (PoolInternal.new emptyStorage) pid5).1 pid5).2 = .ok () ∧
    (pin_page (pin_page (PoolInternal.new emptyStorage) pid5).1 pid5).1.load_calls = 1 ∧
    viewData (pin_page (PoolInternal.new emptyStorage) pid5).1 0 = some zeroData := by
  have h := claim9_pin_not_atomic (PoolInternal.new emptyStorage) pid5 rfl
    (by decide) rfl
  refine ⟨rfl, by decide, rfl, ?_, rfl, ?_, ?_, h.2.2⟩
  · simp only [h.1]
  · simp only [h.2.1]
  · simp only [h.2.1]
    rfl

/-- C10.  `create_and_pin_page` failing with `PoolIsFull` is not atomic
with respect to the backend: for a fresh id on both pool and backend and
a full arena, the call returns `PoolIsFull` with the directory and arena
unchanged, yet the page now exists on the backend, so a later
`create_and_pin_page` for the same id fails with
`Storage(PageAlreadyExists)` although the page was never pinned. -/
theorem claim10_create_full_not_atomic (s : PoolInternal) (page : PageId)
    (hmiss : alGet s.storage.map page = none)
    (hnone : alGet s.page_state page = none)
    (hfull : s.pages.length ≥ POOL_SIZE) :
    create_and_pin_page s page =
      ({ s with storage := { map := alInsert s.storage.map page zeroData } }, .error .PoolIsFull) ∧
    (create_and_pin_page s page).1.pages = s.pages ∧
    (create_and_pin_page s page).1.page_state = s.page_state ∧
    alGet (create_and_pin_page s page).1.storage.map page = some zeroData ∧
    (create_and_pin_page (create_and_pin_page s page).1 page).2 =
      .error (.Storage .PageAlreadyExists) := by
  have hc : TestStorage.create_page s.storage page =
      .ok { map := alInsert s.storage.map page zeroData } := by
    simp [TestStorage.create_page, hmiss]
  have e1 : create_and_pin_page s page =
      ({ s with storage := { map := alInsert s.storage.map page zeroData } }, .error .PoolIsFull) := by
    simp only [create_and_pin_page, hc]
    exact pin_full hnone hfull
  have h2 : (alGet ({ s with storage := { map := alInsert s.storage.map page zeroData } } : PoolInternal).storage.map page).isSome := by
    simp [alGet_alInsert_self]
  refine ⟨e1, ?_, ?_, ?_, ?_⟩
  · simp only [e1]
  · simp only [e1]
  · simp only [e1]
    exact alGet_alInsert_self
  · simp only [e1]
    rw [create_and_pin_exists h2]

/-- Witness for C10 at the full pool `fullPool` and page 0. -/
theorem claim10_witness :
    alGet fullPool.storage.map pid0 = none ∧
    alGet fullPool.page_state pid0 = none ∧
    fullPool.pages.length ≥ POOL_SIZE ∧
    (create_and_pin_page fullPool pid0).2 = .error .PoolIsFull ∧
    (create_and_pin_page fullPool pid0).1.pages = fullPool.pages ∧
    (create_and_pin_page fullPool pid0).1.page_state = fullPool.page_state ∧
    (create_and_pin_page (create_and_pin_page fullPool pid0).1 pid0).2 =
      .error (.Storage .PageAlreadyExists) := by
  have h := claim10_create_full_not_atomic fullPool pid0 rfl rfl (by decide)
  refine ⟨rfl, rfl, by decide, ?_, h.2.1, h.2.2.1, h.2.2.2.2⟩
  simp only [h.1]

end PurpleDB
